import Mathlib

/-!
Verification of the Mulebuy Manager core (src/App.jsx) against its
natural-language specification.

The JavaScript source is shallowly embedded: JSON values become the
inductive `JVal`, JavaScript numbers (which include NaN and the two
infinities) become `JNum`, the browser's local storage becomes the record
`Store` holding one optional parsed JSON blob per key, and each source
function (`parseShopUrl`, `toMulebuy`, `migrateIfNeeded`, `bulkMove`,
`bulkAddTag`, `bySort`, the history update in `handleConvert`, and the
export/import handlers) becomes an executable Lean definition of the same
name and structure.
-/

/-- JavaScript string values parsed from JSON (the shapes `JSON.parse` can
produce): null, booleans, finite numbers, strings, arrays and objects.
Object fields are an association list in insertion order. -/
inductive JVal where
  | null : JVal
  | bool (b : Bool) : JVal
  | num (q : ℚ) : JVal
  | str (s : String) : JVal
  | arr (elems : List JVal) : JVal
  | obj (fields : List (String × JVal)) : JVal
deriving Repr

/-- The whitespace set of JavaScript `String.prototype.trim` (the ASCII
part, which is all the app's inputs contain). -/
def jsIsWS (c : Char) : Bool :=
  c = ' ' ∨ c = '\t' ∨ c = '\n' ∨ c = '\r' ∨ c = '\x0b' ∨ c = '\x0c'

/-- JavaScript `s.trim()`. -/
def jsTrim (s : String) : String :=
  String.mk (((s.toList.dropWhile jsIsWS).reverse.dropWhile jsIsWS).reverse)

/-- JavaScript number values as produced by `Number(...)` and arithmetic:
NaN, the two infinities, and finite values (modelled exactly as rationals;
the source never relies on float rounding). -/
inductive JNum where
  | nan : JNum
  | inf (pos : Bool) : JNum
  | fin (q : ℚ) : JNum
deriving DecidableEq, Repr

/-- JavaScript subtraction `x - y` on `JNum`. The finite case is phrased
with a single `Rat.divInt` so that concrete values reduce in the kernel;
`JNum.sub_fin` below shows it is ordinary rational subtraction. -/
def JNum.sub : JNum → JNum → JNum
  | .nan, _ => .nan
  | _, .nan => .nan
  | .inf p, .inf q => if p = q then .nan else .inf p
  | .inf p, .fin _ => .inf p
  | .fin _, .inf p => .inf (!p)
  | .fin a, .fin b => .fin (Rat.divInt (a.num * b.den - b.num * a.den) (a.den * b.den))

/-- JavaScript truthiness of a parsed JSON value: `null`, `false`, `0` and
`""` are falsy; every other value (including `[]` and `{}`) is truthy. -/
def jsTruthy : JVal → Bool
  | .null => false
  | .bool b => b
  | .num q => q != 0
  | .str s => s != ""
  | .arr _ => true
  | .obj _ => true

/-- Truthiness of a possibly-undefined value (`none` models `undefined`). -/
def jsTruthyOpt : Option JVal → Bool
  | none => false
  | some v => jsTruthy v

/-- JavaScript `a || b` where `a` may be `undefined` (`none`). -/
def jsOr (a : Option JVal) (b : JVal) : JVal :=
  match a with
  | some v => if jsTruthy v then v else b
  | none => b

/-- Digit list to natural number (base `b`). -/
def digitsToNat (b : ℕ) (ds : List ℕ) : ℕ :=
  ds.foldl (fun acc d => acc * b + d) 0

/-- Hex digit value, if the character is one. -/
def hexDigit (c : Char) : Option ℕ :=
  if c.isDigit then some (c.toNat - '0'.toNat)
  else if 'a' ≤ c ∧ c ≤ 'f' then some (c.toNat - 'a'.toNat + 10)
  else if 'A' ≤ c ∧ c ≤ 'F' then some (c.toNat - 'A'.toNat + 10)
  else none

/-- Decimal digit value, if the character is one. -/
def decDigit (c : Char) : Option ℕ :=
  if c.isDigit then some (c.toNat - '0'.toNat) else none

/-- Parse a non-empty all-digit character list in base `b` via `dig`. -/
def parseRadix (dig : Char → Option ℕ) (b : ℕ) (cs : List Char) : Option ℕ :=
  if cs.isEmpty then none
  else
    (cs.mapM dig).map (digitsToNat b)

/-- StrUnsignedDecimalLiteral with the sign already factored in:
`digits [. digits] [e[±]digits]` or `. digits [e[±]digits]`, requiring at
least one mantissa digit, and a non-empty digit sequence after an exponent
marker. The rational is assembled with one `Rat.divInt` over Nat/Int
arithmetic so that concrete inputs evaluate by kernel reduction. -/
def parseDecimal (sign : Int) (cs : List Char) : Option ℚ :=
  let intPart := cs.takeWhile Char.isDigit
  let rest₁ := cs.drop intPart.length
  let fracPart :=
    match rest₁ with
    | '.' :: r => r.takeWhile Char.isDigit
    | _ => []
  let rest₂ :=
    match rest₁ with
    | '.' :: r => r.drop fracPart.length
    | r => r
  if intPart.isEmpty ∧ fracPart.isEmpty then none
  else
    let mantNum : ℕ :=
      digitsToNat 10 (intPart.filterMap decDigit) * 10 ^ fracPart.length +
        digitsToNat 10 (fracPart.filterMap decDigit)
    let mk : ℕ → ℕ → Option ℚ := fun eup edown =>
      some (Rat.divInt (sign * (mantNum * 10 ^ eup : ℕ)) ((10 ^ fracPart.length * 10 ^ edown : ℕ)))
    match rest₂ with
    | [] => mk 0 0
    | e :: r =>
      if e = 'e' ∨ e = 'E' then
        let (epos, edigs) :=
          match r with
          | '+' :: r' => (true, r')
          | '-' :: r' => (false, r')
          | r' => (true, r')
        if edigs.isEmpty ∨ ¬ edigs.all Char.isDigit then none
        else
          let ex := digitsToNat 10 (edigs.filterMap decDigit)
          if epos then mk ex 0 else mk 0 ex
      else none

/-- The string-to-number conversion performed by JavaScript `Number(s)`:
trim, empty becomes `0`, an optional sign followed by a decimal literal or
`Infinity`, unsigned hex/octal/binary literals, anything else `NaN`.
(Multi-byte exotic whitespace is not modelled; the app only feeds it
user-typed price strings.) -/
def jsToNumber (s : String) : JNum :=
  let t := (jsTrim s).toList
  if t.isEmpty then .fin 0
  else
    match t with
    | '0' :: x :: rest =>
      if x = 'x' ∨ x = 'X' then
        match parseRadix hexDigit 16 rest with
        | some n => .fin (Rat.divInt n 1)
        | none => .nan
      else if x = 'o' ∨ x = 'O' then
        match parseRadix (fun c => if '0' ≤ c ∧ c ≤ '7' then decDigit c else none) 8 rest with
        | some n => .fin (Rat.divInt n 1)
        | none => .nan
      else if x = 'b' ∨ x = 'B' then
        match parseRadix (fun c => if c = '0' ∨ c = '1' then decDigit c else none) 2 rest with
        | some n => .fin (Rat.divInt n 1)
        | none => .nan
      else
        match parseDecimal 1 t with
        | some q => .fin q
        | none => .nan
    | _ =>
      let (sign, body) :=
        match t with
        | '-' :: r => ((-1 : Int), r)
        | '+' :: r => ((1 : Int), r)
        | r => ((1 : Int), r)
      if body = "Infinity".toList then .inf (sign = 1)
      else
        match parseDecimal sign body with
        | some q => .fin q
        | none => .nan

/-- Prefix test `small.isPrefixOfList big` on characters. -/
def startsWithL : List Char → List Char → Bool
  | [], _ => true
  | _ :: _, [] => false
  | a :: as, b :: bs => a = b && startsWithL as bs

/-- Substring test on char lists (the pattern occurs contiguously). -/
def isSubList (pat : List Char) : List Char → Bool
  | [] => pat.isEmpty
  | l@(_ :: rest) => startsWithL pat l || isSubList pat rest

/-- JavaScript `s.includes(pat)`. -/
def strIncludes (s pat : String) : Bool :=
  isSubList pat.toList s.toList

/-- Split a character list at every occurrence of `sep` (separators are
consumed; `n` separators produce `n + 1` pieces). -/
def splitOnC (sep : Char) : List Char → List (List Char)
  | [] => [[]]
  | a :: as =>
    match splitOnC sep as with
    | [] => [[]]
    | r :: rs => if a = sep then [] :: r :: rs else (a :: r) :: rs

/-- Percent-decoding of one query component as `URLSearchParams` does it:
`+` becomes a space, a valid `%hh` pair becomes the byte, anything else is
kept verbatim. (Multi-byte UTF-8 sequences are not reassembled; the app
only extracts ASCII item ids.) -/
def decodeQ : List Char → List Char
  | [] => []
  | '+' :: rest => ' ' :: decodeQ rest
  | '%' :: a :: b :: rest =>
    match hexDigit a, hexDigit b with
    | some ha, some hb => Char.ofNat (ha * 16 + hb) :: decodeQ rest
    | _, _ => '%' :: decodeQ (a :: b :: rest)
  | c :: rest => c :: decodeQ rest

/-- Key/value pairs of a query string, as `new URLSearchParams(q)` yields
them: split on `&`, ignore empty pieces, split each piece at its first
`=` (a piece without `=` maps to the empty value), percent-decode both
sides. -/
def parseQuery (q : String) : List (String × String) :=
  ((splitOnC '&' q.toList).filter (fun p => ¬ p.isEmpty)).map fun piece =>
    let k := piece.takeWhile (fun c => c ≠ '=')
    let v := (piece.dropWhile (fun c => c ≠ '=')).drop 1
    (String.mk (decodeQ k), String.mk (decodeQ v))

/-- Lookup `params.get(k)`: the first value whose key is `k`, if any. -/
def getParam (ps : List (String × String)) (k : String) : Option String :=
  match ps with
  | [] => none
  | (a, b) :: rest => if a = k then some b else getParam rest k

/-- The two pieces of a parsed URL that `parseShopUrl` consumes:
`url.hostname` (lower-cased, no port) and the query string with the
leading `?` already removed (what `new URLSearchParams(url.search)`
operates on). -/
structure URLRec where
  hostname : String
  query : String
deriving DecidableEq, Repr

/-- Schemes the WHATWG URL standard treats as special (they require a
non-empty host and absorb any number of slashes after the colon). -/
def isSpecialScheme (s : List Char) : Bool :=
  s = "http".toList ∨ s = "https".toList ∨ s = "ws".toList ∨
    s = "wss".toList ∨ s = "ftp".toList

/-- Code points that may not appear in a (non-percent-encoded) host. -/
def forbiddenHostChar (c : Char) : Bool :=
  c = ' ' ∨ c = '<' ∨ c = '>' ∨ c = '\\' ∨ c = '^' ∨ c = '|' ∨
    c = '"' ∨ c = '\x7b' ∨ c = '\x7d' ∨ c = '`' ∨ c = '\x00' ∨
    c = '\t' ∨ c = '\n' ∨ c = '\r'

/-- The query part of everything after the authority: drop the fragment
(`#...`), then take what follows the first `?`. -/
def extractQuery (cs : List Char) : List Char :=
  ((cs.takeWhile (fun c => c ≠ '#')).dropWhile (fun c => c ≠ '?')).drop 1

/-- Model of the WHATWG `new URL(s)` constructor, restricted to the two
outputs the app reads (hostname and query) and returning `none` exactly
where the constructor throws: no `scheme:` prefix, a malformed scheme, a
non-numeric port, forbidden host characters, or an empty host under a
special scheme. A non-special scheme without `//` parses with an empty
hostname. -/
def parseURL (s : String) : Option URLRec :=
  let cs := s.toList
  if ¬ cs.contains ':' then none
  else
    let scheme := (cs.takeWhile (fun c => c ≠ ':')).map Char.toLower
    let rest := (cs.dropWhile (fun c => c ≠ ':')).drop 1
    match scheme with
    | [] => none
    | c :: crest =>
      if ¬ c.isAlpha then none
      else if ¬ crest.all (fun x => x.isAlphanum ∨ x = '+' ∨ x = '-' ∨ x = '.') then none
      else
        let special := isSpecialScheme scheme
        if special ∨ startsWithL "//".toList rest then
          let afterSlashes :=
            if special then rest.dropWhile (fun x => x = '/' ∨ x = '\\')
            else rest.drop 2
          let authority := afterSlashes.takeWhile (fun x => x ≠ '/' ∧ x ≠ '?' ∧ x ≠ '#' ∧ x ≠ '\\')
          let tail := afterSlashes.drop authority.length
          let hostport :=
            if authority.contains '@' then (authority.reverse.takeWhile (fun x => x ≠ '@')).reverse
            else authority
          let host := hostport.takeWhile (fun x => x ≠ ':')
          let port := (hostport.dropWhile (fun x => x ≠ ':')).drop 1
          if ¬ port.all Char.isDigit then none
          else if host.any forbiddenHostChar then none
          else if host.isEmpty ∧ special then none
          else some ⟨String.mk (host.map Char.toLower), String.mk (extractQuery tail)⟩
        else
          some ⟨"", String.mk (extractQuery rest)⟩

/-- The app's `Settings` object shape. -/
structure Settings where
  defaultRef : String
  defaultList : String
  compactCards : Bool
deriving DecidableEq, Repr

/-- Constant `DEFAULT_SETTINGS` from the source (App.jsx lines 42-46). -/
def DEFAULT_SETTINGS : Settings :=
  { defaultRef := "200084174", defaultList := "Wishlist", compactCards := false }

/-- Constant `LISTS` from the source: the fixed list set. -/
def LISTS : List String := ["Wishlist", "To Buy", "Ordered", "Received", "Archived"]

/-- The four distinct failure conditions of `parseShopUrl`, one per
`throw new Error(...)` site (the French messages are elided). -/
inductive ParseErr where
  | EmptyInput
  | MalformedUrl
  | MissingItemId
  | UnsupportedDomain
deriving DecidableEq, Repr

deriving instance DecidableEq for Except

/-- Function `parseShopUrl` (App.jsx lines 53-71): trim, reject the empty string,
parse as a URL, then branch on whether the hostname contains
`weidian.com` (query parameter `itemID`) or `taobao.com` (query
parameter `id`); `if (!itemID)` rejects both a missing and an empty
parameter. -/
def parseShopUrl (raw : String) : Except ParseErr (String × String) :=
  let s := jsTrim raw
  if s = "" then .error .EmptyInput
  else
    match parseURL s with
    | none => .error .MalformedUrl
    | some url =>
      let host := url.hostname
      let q := parseQuery url.query
      if strIncludes host "weidian.com" then
        match getParam q "itemID" with
        | none => .error .MissingItemId
        | some v => if v = "" then .error .MissingItemId else .ok ("weidian", v)
      else if strIncludes host "taobao.com" then
        match getParam q "id" with
        | none => .error .MissingItemId
        | some v => if v = "" then .error .MissingItemId else .ok ("taobao", v)
      else .error .UnsupportedDomain

/-- Function `toMulebuy` (App.jsx lines 73-76) on string arguments, as called from
`handleConvert` and the drawer: `(ref || DEFAULT_SETTINGS.defaultRef).trim()`
interpolated into the fixed template. -/
def toMulebuy (shop_type id ref : String) : String :=
  "https://mulebuy.com/product/?shop_type=" ++ shop_type ++ "&id=" ++ id ++ "&ref=" ++
    jsTrim (if ref = "" then DEFAULT_SETTINGS.defaultRef else ref)

/-- The product record shape created by `newProductFromConv` /
`newBlankProduct` and edited in place; `images` keeps only a count here
since the app never branches on image contents. -/
structure Product where
  uid : String
  created_at : String
  list : String
  shop_type : String
  id : String
  ref : String
  mulebuy_url : String
  title : String
  seller : String
  size : String
  price : String
  rating : ℕ
  notes : String
  tags : List String
  qc_links : List String
  images : List String
deriving DecidableEq, Repr

/-- A product with every field empty, for building concrete test inputs. -/
def blankP : Product :=
  { uid := "", created_at := "", list := "Wishlist", shop_type := "weidian",
    id := "", ref := "", mulebuy_url := "", title := "", seller := "",
    size := "", price := "", rating := 0, notes := "", tags := [],
    qc_links := [], images := [] }

/-- Coercion `Number(p.price || 0)`: the empty price string is falsy, so `Number`
receives the number `0`; any other string goes through `Number(...)`. -/
def priceNum (p : Product) : JNum :=
  if p.price = "" then .fin 0 else jsToNumber p.price

/-- String comparison result as `localeCompare` returns it, modelling the
default-locale collation as code-point order (no claim depends on the
collation's fine structure). -/
def localeCmp (a b : String) : JNum :=
  if a < b then .fin (-1) else if a = b then .fin 0 else .fin 1

/-- Function `bySort(sortId)` (App.jsx lines 375-388): the comparator handed to
`Array.prototype.sort`, returning a JavaScript number. -/
def bySort (sortId : String) (a b : Product) : JNum :=
  if sortId = "created_at_desc" then localeCmp b.created_at a.created_at
  else if sortId = "created_at_asc" then localeCmp a.created_at b.created_at
  else if sortId = "title_asc" then localeCmp a.title b.title
  else if sortId = "title_desc" then localeCmp b.title a.title
  else if sortId = "price_asc" then JNum.sub (priceNum a) (priceNum b)
  else if sortId = "price_desc" then JNum.sub (priceNum b) (priceNum a)
  else if sortId = "shop_type" then localeCmp a.shop_type b.shop_type
  else .fin 0

/-- ECMAScript `SortCompare`'s use of a comparator result: a NaN result
counts as `+0`, i.e. as a tie; otherwise the sign decides. -/
def sortCompare (n : JNum) : Ordering :=
  match n with
  | .nan => .eq
  | .inf true => .gt
  | .inf false => .lt
  | .fin q => if q.num < 0 then .lt else if q.num = 0 then .eq else .gt

/-- Function `bulkMove(listName)` (App.jsx lines 225-229) on the products state:
no-op for an empty selection, otherwise `list` is set to `listName` on
exactly the selected uids. No validation of `listName` occurs. -/
def bulkMove (sel : List String) (listName : String) (ps : List Product) : List Product :=
  if sel.isEmpty then ps
  else ps.map fun p => if sel.contains p.uid then { p with list := listName } else p

/-- First-occurrence deduplication: `Array.from(new Set(l))` (a JS `Set`
keeps the first insertion of each element). -/
def dedupFirst [DecidableEq α] (seen : List α) : List α → List α
  | [] => []
  | a :: as => if a ∈ seen then dedupFirst seen as else a :: dedupFirst (a :: seen) as

/-- The per-product body of `bulkAddTag`'s `prev.map(p => ...)`: a
selected product's tags become `Array.from(new Set([...(p.tags||[]), tag]))`,
any other product is returned as-is. -/
def addTagP (sel : List String) (tag : String) (p : Product) : Product :=
  if sel.contains p.uid then { p with tags := dedupFirst [] (p.tags ++ [tag]) } else p

/-- Function `bulkAddTag(tag)` (App.jsx lines 231-234) on the products state: the
guard is `if (!tag) return` — only the empty string short-circuits — then
the map over the collection applies `addTagP`. -/
def bulkAddTag (sel : List String) (tag : String) (ps : List Product) : List Product :=
  if tag = "" then ps else ps.map (addTagP sel tag)

/-- One record of the conversion history, as built in `handleConvert`:
`{ id: uid(), ts: now, input: inputUrl, ...parsed, ref, out: url }`.
Because `...parsed` is spread after `id:`, the parsed item id overwrites
the freshly generated `uid()`, so `id` holds the external item id. -/
structure HistEntry where
  id : String
  ts : String
  input : String
  shop_type : String
  ref : String
  out : String
deriving DecidableEq, Repr

/-- The history update performed by one `handleConvert` call (App.jsx
lines 169-181): on a parse failure the history is untouched; on success
the new entry is prepended and the list truncated with `.slice(0, 400)`. -/
def handleConvert (now inputUrl ref : String) (hist : List HistEntry) : List HistEntry :=
  match parseShopUrl inputUrl with
  | .error _ => hist
  | .ok (st, eid) =>
    let url := toMulebuy st eid ref
    (({ id := eid, ts := now, input := inputUrl, shop_type := st, ref := ref, out := url } : HistEntry)
      :: hist).take 400

/-- A member access `x.k` as the migration and import code perform it:
throws (`.error ()`) when `x` is `null`; yields the field (or `undefined`,
i.e. `none`) on an object; yields `undefined` on any other value, since
the accessed names are not built-in properties of primitives or arrays. -/
def jsMember (x : JVal) (k : String) : Except Unit (Option JVal) :=
  match x with
  | .null => .error ()
  | .obj fs => .ok (fs.lookup k)
  | _ => .ok none

/-- Discriminator for the `null` constructor. -/
def JVal.isNull : JVal → Bool
  | .null => true
  | _ => false

mutual

/-- JavaScript `String(v)` / template-literal stringification of a parsed
JSON value. Finite numbers print via `Rat.divInt`-free integer printing
when integral and a plain fraction otherwise — only the string branch is
ever exercised by the claims. -/
def jsToString : JVal → String
  | .null => "null"
  | .bool b => if b then "true" else "false"
  | .num q => if q.den = 1 then toString q.num else toString q.num ++ "/" ++ toString q.den
  | .str s => s
  | .arr l => jsToStringList l
  | .obj _ => "[object Object]"

/-- Stringification `Array.prototype.toString`: elements joined with `,`, `null` printing
as the empty string inside an array. -/
def jsToStringList : List JVal → String
  | [] => ""
  | [v] => if v.isNull then "" else jsToString v
  | v :: rest => (if v.isNull then "" else jsToString v) ++ "," ++ jsToStringList rest
end

/-- Stringification `String(v)` where `v` may be `undefined` (template-literal prints
`undefined` for it). -/
def jsToStringU : Option JVal → String
  | none => "undefined"
  | some v => jsToString v

/-- The `Settings` object as stored (what `JSON.stringify` on
`DEFAULT_SETTINGS` parses back to). -/
def settingsToJ (s : Settings) : JVal :=
  .obj [("defaultRef", .str s.defaultRef), ("defaultList", .str s.defaultList),
        ("compactCards", .bool s.compactCards)]

/-- The browser's local storage, one optional parsed JSON blob per key the
app uses (`mulebuy.products.v2`, `mulebuy.settings.v2`,
`mulebuy.history.v2`, `mulebuy.saved.v1`, `mulebuy.history.v1`). `none`
covers an absent key and an unparseable blob alike, since
`loadJSON` catches parse failures. -/
structure Store where
  products : Option JVal
  settings : Option JVal
  history : Option JVal
  legacySaved : Option JVal
  legacyHistory : Option JVal
deriving Repr

/-- Function `loadJSON(key, fallback)` (App.jsx lines 98-100): parse failures and
absent keys hit the `catch`/`?? fallback` path, and a stored JSON `null`
also falls back through `??`. -/
def loadJSON (cell : Option JVal) (fallback : JVal) : JVal :=
  match cell with
  | none => fallback
  | some v => if v.isNull then fallback else v

/-- Function `toMulebuy` as invoked inside the legacy migration on raw legacy
fields (`toMulebuy({shop_type: x.shop_type, id: x.id, ref: x.ref})`):
the template stringifies `shop_type` and `id`, while
`(ref || DEFAULT_SETTINGS.defaultRef).trim()` throws (`.error ()`) when
the defaulted `ref` is a truthy non-string. -/
def toMulebuyJ (st idv ref : Option JVal) : Except Unit String :=
  let r := jsOr ref (.str DEFAULT_SETTINGS.defaultRef)
  match r with
  | .str rs =>
    .ok ("https://mulebuy.com/product/?shop_type=" ++ jsToStringU st ++ "&id=" ++
      jsToStringU idv ++ "&ref=" ++ jsTrim rs)
  | _ => .error ()

/-- One legacy record transformed by the `legacy.map(x => ...)` body of
`migrateIfNeeded` (App.jsx lines 113-131). Field access on a `null`
element throws; `uid()` and `new Date().toISOString()` are supplied as
the parameters `freshUid` (per element index) and `now`. A field whose
value would be `undefined` (`shop_type`, `id` with no legacy counterpart)
is omitted, matching what `JSON.stringify` persists. -/
def migrateElem (freshUid now : String) (x : JVal) : Except Unit JVal := do
  let xuid ← jsMember x "uid"
  let xcreated ← jsMember x "created_at"
  let xshop ← jsMember x "shop_type"
  let xid ← jsMember x "id"
  let xref ← jsMember x "ref"
  let xmul ← jsMember x "mulebuy_url"
  let xtitle ← jsMember x "title"
  let xnotes ← jsMember x "notes"
  let xtags ← jsMember x "tags"
  let xqc ← jsMember x "qc_links"
  let ximg ← jsMember x "images"
  let mul ←
    match xmul with
    | some v =>
      if jsTruthy v then pure v
      else (toMulebuyJ xshop xid xref).map JVal.str
    | none => (toMulebuyJ xshop xid xref).map JVal.str
  .ok (.obj (
    [("uid", jsOr xuid (.str freshUid)),
     ("created_at", jsOr xcreated (.str now)),
     ("list", .str DEFAULT_SETTINGS.defaultList)] ++
    (match xshop with | some v => [("shop_type", v)] | none => []) ++
    (match xid with | some v => [("id", v)] | none => []) ++
    [("ref", jsOr xref (.str DEFAULT_SETTINGS.defaultRef)),
     ("mulebuy_url", mul),
     ("title", jsOr xtitle (.str "")),
     ("seller", .str ""), ("size", .str ""), ("price", .str ""),
     ("rating", .num 0),
     ("notes", jsOr xnotes (.str "")),
     ("tags", jsOr xtags (.arr [])),
     ("qc_links", jsOr xqc (.arr [])),
     ("images", jsOr ximg (.arr [])),
     ("_v", .num 2)]))

/-- Mapping `legacy.map(...)` with the fresh-uid source indexed by position. -/
def migrateList (uidGen : ℕ → String) (now : String) : ℕ → List JVal → Except Unit (List JVal)
  | _, [] => .ok []
  | i, x :: rest => do
    let m ← migrateElem (uidGen i) now x
    let ms ← migrateList uidGen now (i + 1) rest
    .ok (m :: ms)

/-- The in-memory state `migrateIfNeeded` returns. -/
structure BootState where
  products : JVal
  settings : JVal
  history : JVal
deriving Repr

/-- Function `migrateIfNeeded` (App.jsx lines 103-142): read the three v2 keys; a
truthy products blob short-circuits; otherwise a legacy v1 array is
transformed and persisted under the v2 products/history keys; otherwise a
fresh empty state is persisted under all three v2 keys. The returned
store reflects the `saveJSON` writes performed. -/
def migrateIfNeeded (uidGen : ℕ → String) (now : String) (s : Store) :
    Except Unit (BootState × Store) :=
  let products := loadJSON s.products .null
  let settings := loadJSON s.settings (settingsToJ DEFAULT_SETTINGS)
  let history := loadJSON s.history (.arr [])
  if jsTruthy products then .ok (⟨products, settings, history⟩, s)
  else
    let legacy := loadJSON s.legacySaved .null
    let legacyHistory :=
      (fun v => if jsTruthy v then v else .arr []) (loadJSON s.legacyHistory (.arr []))
    match legacy with
    | .arr xs => do
      let migrated ← migrateList uidGen now 0 xs
      .ok (⟨.arr migrated, settingsToJ DEFAULT_SETTINGS, legacyHistory⟩,
        { s with products := some (.arr migrated), history := some legacyHistory })
    | _ =>
      .ok (⟨.arr [], settingsToJ DEFAULT_SETTINGS, .arr []⟩,
        { s with
          products := some (.arr [])
          settings := some (settingsToJ DEFAULT_SETTINGS)
          history := some (.arr []) })

/-- First value stored under key `k` in an object's field list (JS objects
hold each key once, so this is the field's value). -/
def lookupKey (k : String) : List (String × JVal) → Option JVal
  | [] => none
  | (a, v) :: rest => if a = k then some v else lookupKey k rest

/-- The fields JavaScript object spread enumerates from a value: an
object's own fields; nothing from primitives (`null`, `undefined`,
booleans, numbers spread to nothing); array/string element spreading is
not modelled, as the import path only ever spreads `settings` values. -/
def spreadFields : JVal → List (String × JVal)
  | .obj fs => fs
  | _ => []

/-- Spread `\x7b ...prev, ...next \x7d`: prev's keys in order with next's value where
next also has the key, then next's new keys in next's order. -/
def jsSpread (prev next : JVal) : JVal :=
  let a := spreadFields prev
  let b := spreadFields next
  .obj ((a.map fun kv => (kv.1, (lookupKey kv.1 b).getD kv.2)) ++
    (b.filter fun kv => ¬ (a.map Prod.fst).contains kv.1))

/-- The document built by the export path (App.jsx line 672):
`JSON.stringify({ settings, products }, null, 2)` parsed back — exactly
the two top-level fields `settings` and `products`, in that order. -/
def exportDoc (settings : JVal) (products : List JVal) : JVal :=
  .obj [("settings", settings), ("products", .arr products)]

/-- The body of `ImportButton.onPick`'s `reader.onload` (App.jsx lines
732-744) applied to an already-parsed document: a bare array replaces the
products wholesale; otherwise `data.products` (which throws on a parsed
`null`, caught by the surrounding `try`) replaces products when it is an
array, and a truthy `data.settings` is merged over the current settings.
The first component is `some ()` exactly on the caught-error path, and
the second is the resulting `(products, settings)` state. -/
def jsImport (data : JVal) (ps : List JVal) (st : JVal) :
    Option Unit × (List JVal × JVal) :=
  match data with
  | .arr l => (none, (l, st))
  | .null => (some (), (ps, st))
  | _ =>
    let pr := lookupKey "products" (spreadFields data)
    let ps' := match pr with | some (.arr l) => l | _ => ps
    let stv := lookupKey "settings" (spreadFields data)
    let st' := match stv with | some v => if jsTruthy v then jsSpread st v else st | none => st
    (none, (ps', st'))

/-- The history entry one conversion produces, when its input parses. -/
def convEntry (now inputUrl ref : String) : Option HistEntry :=
  match parseShopUrl inputUrl with
  | .error _ => none
  | .ok (st, eid) =>
    some { id := eid, ts := now, input := inputUrl, shop_type := st, ref := ref,
           out := toMulebuy st eid ref }

/-- A sequence of `handleConvert` calls (triples of timestamp, input URL
and referral code) folded over a starting history. -/
def runConversions (runs : List (String × String × String)) (hist : List HistEntry) :
    List HistEntry :=
  runs.foldl (fun h r => handleConvert r.1 r.2.1 r.2.2 h) hist

/-- Characters that pass unchanged through query-component decoding and
never collide with the `&`, `=`, `%`, `+` metacharacters. -/
def qsafe (c : Char) : Bool :=
  c.isAlphanum ∨ c = '_' ∨ c = '.' ∨ c = '-' ∨ c = '~'

/-- Expression `(ref || DEFAULT_SETTINGS.defaultRef).trim()`: the referral code the
renderer actually embeds. -/
def resolvedRef (rc : String) : String :=
  jsTrim (if rc = "" then DEFAULT_SETTINGS.defaultRef else rc)

/-- The weidian branch of `parseShopUrl`: `itemID` must be present and
non-empty. -/
def weidianResult (u : URLRec) : Except ParseErr (String × String) :=
  match getParam (parseQuery u.query) "itemID" with
  | none => .error .MissingItemId
  | some v => if v = "" then .error .MissingItemId else .ok ("weidian", v)

/-- The taobao branch of `parseShopUrl`: `id` must be present and
non-empty. -/
def taobaoResult (u : URLRec) : Except ParseErr (String × String) :=
  match getParam (parseQuery u.query) "id" with
  | none => .error .MissingItemId
  | some v => if v = "" then .error .MissingItemId else .ok ("taobao", v)

theorem JNum.sub_fin (a b : ℚ) : JNum.sub (.fin a) (.fin b) = .fin (a - b) := by
  have ha : (a.den : Int) ≠ 0 := Int.ofNat_ne_zero.mpr a.den_nz
  have hb : (b.den : Int) ≠ 0 := Int.ofNat_ne_zero.mpr b.den_nz
  simp only [JNum.sub, JNum.fin.injEq]
  conv_rhs => rw [← Rat.num_divInt_den a, ← Rat.num_divInt_den b]
  rw [Rat.divInt_sub_divInt _ _ ha hb]

example : jsToNumber "" = .fin 0 := by decide

example : jsToNumber "  5 " = .fin 5 := by decide

example : jsToNumber "abc" = .nan := by decide

example : jsToNumber "-2.5" = .fin (Rat.divInt (-5) 2) := by decide

example : jsToNumber "1e2" = .fin 100 := by decide

example : jsToNumber "0x10" = .fin 16 := by decide

example : jsToNumber "12a" = .nan := by decide

example : jsToNumber "-Infinity" = .inf false := by decide

example : jsToNumber "0" = .fin 0 := by decide

example : jsToNumber ".5" = .fin (Rat.divInt 1 2) := by decide

example : strIncludes "shop.weidian.com" "weidian.com" = true := by decide

example : strIncludes "example.org" "weidian.com" = false := by decide

example : parseQuery "itemID=123&x=1" = [("itemID", "123"), ("x", "1")] := by decide

example : getParam (parseQuery "a=1&b=2") "b" = some "2" := by decide

example : getParam (parseQuery "a=1") "b" = none := by decide

example : parseURL "https://weidian.com/item.html?itemID=123" =
    some ⟨"weidian.com", "itemID=123"⟩ := by decide

example : parseURL "https://item.taobao.com/item.htm?id=456" =
    some ⟨"item.taobao.com", "id=456"⟩ := by decide

example : parseURL "not a url" = none := by decide

example : parseURL "https://" = none := by decide

example : parseURL "mailto:someone" = some ⟨"", ""⟩ := by decide

example : parseURL "HTTP://WeiDian.com/x" = some ⟨"weidian.com", ""⟩ := by decide

example : parseURL "https://user@weidian.com:443/a?x=1#f" = some ⟨"weidian.com", "x=1"⟩ := by decide

example : parseShopUrl "https://weidian.com/item.html?itemID=123" = .ok ("weidian", "123") := by decide

example : parseShopUrl "https://item.taobao.com/item.htm?id=456" = .ok ("taobao", "456") := by decide

example : parseShopUrl "" = .error .EmptyInput := by decide

example : parseShopUrl "   " = .error .EmptyInput := by decide

example : parseShopUrl "not a url" = .error .MalformedUrl := by decide

example : parseShopUrl "https://weidian.com/item.html" = .error .MissingItemId := by decide

example : parseShopUrl "https://weidian.com/item.html?itemID=" = .error .MissingItemId := by decide

example : parseShopUrl "https://example.org/?id=3" = .error .UnsupportedDomain := by decide

example : toMulebuy "weidian" "123" "R9" =
    "https://mulebuy.com/product/?shop_type=weidian&id=123&ref=R9" := by decide

example : toMulebuy "weidian" "123" "" =
    "https://mulebuy.com/product/?shop_type=weidian&id=123&ref=200084174" := by decide

example : toMulebuy "weidian" "123" "  " =
    "https://mulebuy.com/product/?shop_type=weidian&id=123&ref=" := by decide

theorem sortCompare_fin_neg (q : ℚ) (h : q < 0) : sortCompare (.fin q) = .lt := by
  simp [sortCompare, Rat.num_neg.mpr h]

theorem sortCompare_fin_zero : sortCompare (.fin 0) = .eq := by decide

theorem sortCompare_fin_pos (q : ℚ) (h : 0 < q) : sortCompare (.fin q) = .gt := by
  have h1 : ¬ q.num < 0 := by simpa [Rat.num_neg] using not_lt.mpr (le_of_lt h)
  have h2 : q.num ≠ 0 := by simpa [Rat.num_eq_zero] using ne_of_gt h
  simp [sortCompare, h1, h2]

example : dedupFirst [] ["a", "b", "a", "c"] = ["a", "b", "c"] := by decide

example : jsImport (.num 5) [] (.obj []) = (none, ([], .obj [])) := rfl

example : jsImport .null [.str "p"] (.obj []) = (some (), ([.str "p"], .obj [])) := rfl

example : jsImport (.arr [.str "q"]) [.str "p"] (.obj []) = (none, ([.str "q"], .obj [])) := rfl

example :
    jsImport (exportDoc (.obj [("defaultRef", .str "1")]) [.str "p"]) [] (.obj [("defaultRef", .str "1")]) =
      (none, ([.str "p"], .obj [("defaultRef", .str "1")])) := rfl

theorem mem_dedupFirst [DecidableEq α] (x : α) :
    ∀ (l seen : List α), x ∈ dedupFirst seen l ↔ x ∈ l ∧ x ∉ seen
  | [], seen => by simp [dedupFirst]
  | a :: as, seen => by
    by_cases ha : a ∈ seen
    · simp only [dedupFirst, if_pos ha, mem_dedupFirst x as seen, List.mem_cons]
      constructor
      · rintro ⟨h1, h2⟩; exact ⟨Or.inr h1, h2⟩
      · rintro ⟨h1 | h1, h2⟩
        · exact absurd (h1 ▸ ha) h2
        · exact ⟨h1, h2⟩
    · simp only [dedupFirst, if_neg ha, List.mem_cons, mem_dedupFirst x as (a :: seen)]
      constructor
      · rintro (rfl | ⟨h1, h2⟩)
        · exact ⟨Or.inl rfl, ha⟩
        · exact ⟨Or.inr h1, fun hx => h2 (by simp [hx])⟩
      · rintro ⟨rfl | h1, h2⟩
        · exact Or.inl rfl
        · by_cases hxa : x = a
          · exact Or.inl hxa
          · exact Or.inr ⟨h1, by simp [hxa, h2]⟩

theorem nodup_dedupFirst [DecidableEq α] :
    ∀ (l seen : List α), (dedupFirst seen l).Nodup
  | [], _ => List.nodup_nil
  | a :: as, seen => by
    by_cases ha : a ∈ seen
    · simpa [dedupFirst, if_pos ha] using nodup_dedupFirst as seen
    · simp only [dedupFirst, if_neg ha, List.nodup_cons]
      refine ⟨fun hmem => ?_, nodup_dedupFirst as (a :: seen)⟩
      exact ((mem_dedupFirst a as (a :: seen)).mp hmem).2 (List.mem_cons_self a seen)

theorem dedupFirst_eq_self [DecidableEq α] :
    ∀ (l seen : List α), l.Nodup → (∀ x ∈ l, x ∉ seen) → dedupFirst seen l = l
  | [], _, _, _ => rfl
  | a :: as, seen, hnd, hdisj => by
    have ha : a ∉ seen := hdisj a (List.mem_cons_self a as)
    simp only [dedupFirst, if_neg ha, List.cons.injEq, true_and]
    refine dedupFirst_eq_self as (a :: seen) (List.Nodup.of_cons hnd) fun x hx => ?_
    simp only [List.mem_cons, not_or]
    exact ⟨fun hxa => (List.nodup_cons.mp hnd).1 (hxa ▸ hx), hdisj x (List.mem_cons_of_mem _ hx)⟩

theorem dedupFirst_append_single [DecidableEq α] (t : α) :
    ∀ (l seen : List α),
      dedupFirst seen (l ++ [t]) =
        dedupFirst seen l ++ (if t ∈ seen ∨ t ∈ l then [] else [t])
  | [], seen => by
    by_cases ht : t ∈ seen <;> simp [dedupFirst, ht]
  | a :: as, seen => by
    by_cases ha : a ∈ seen
    · rw [List.cons_append]
      simp only [dedupFirst, if_pos ha, dedupFirst_append_single t as seen]
      by_cases hts : t ∈ seen
      · simp [hts]
      · by_cases hta : t = a
        · exact absurd (hta ▸ ha) hts
        · simp [hts, hta]
    · rw [List.cons_append]
      simp only [dedupFirst, if_neg ha, dedupFirst_append_single t as (a :: seen),
        List.cons_append, List.mem_cons]
      by_cases hts : t ∈ seen
      · simp [hts]
      · by_cases hta : t = a
        · simp [hta]
        · simp [hts, hta]

theorem dedupFirst_append_same [DecidableEq α] (l : List α) (t : α) :
    dedupFirst [] (dedupFirst [] (l ++ [t]) ++ [t]) = dedupFirst [] (l ++ [t]) := by
  have hmem : t ∈ dedupFirst ([] : List α) (l ++ [t]) := by
    rw [mem_dedupFirst]
    simp
  rw [dedupFirst_append_single t (dedupFirst [] (l ++ [t])) []]
  simp only [List.not_mem_nil, hmem, or_true, if_true, List.append_nil]
  exact dedupFirst_eq_self _ [] (nodup_dedupFirst _ _) (by simp)

/-- C1, counterexample: the claim says a `targetList` outside the fixed
list set makes the move fail and leaves every product's `list` field
unchanged, but `bulkMove` performs no validation: with `"NotARealList"`
the selected product's `list` field is overwritten. -/
theorem claim1_counterexample :
    "NotARealList" ∉ LISTS ∧
    bulkMove ["u1"] "NotARealList" [{ blankP with uid := "u1" }] =
      [{ blankP with uid := "u1", list := "NotARealList" }] ∧
    ({ blankP with uid := "u1" } : Product).list ≠ "NotARealList" := by decide

/-- C1 (amended): `bulkMove` never fails and performs no validation of
`targetList`. For an empty selection it is a no-op; otherwise, for every
string `targetList` (member of the fixed list set or not), it sets
`list = targetList` on exactly the selected products and returns every
non-selected product unchanged, preserving order and length. -/
theorem claim1_bulkMove (sel : List String) (target : String) (ps : List Product) :
    (sel = [] → bulkMove sel target ps = ps) ∧
    (sel ≠ [] → ∀ i : ℕ,
      (bulkMove sel target ps)[i]? =
        ps[i]?.map fun p => if sel.contains p.uid then { p with list := target } else p) := by
  constructor
  · intro h
    simp [bulkMove, h]
  · intro h i
    have hne : sel.isEmpty = false := by
      cases sel with
      | nil => exact absurd rfl h
      | cons a as => rfl
    simp [bulkMove, hne]

/-- Witness for C1 at a concrete input. -/
theorem claim1_witness :
    (bulkMove ["u1"] "Ordered" [{ blankP with uid := "u1" }])[0]? =
      some { blankP with uid := "u1", list := "Ordered" } := by
  have h := (claim1_bulkMove ["u1"] "Ordered" [{ blankP with uid := "u1" }]).2
    (by decide) 0
  rw [h]; rfl

/-- C5, counterexample: the claim says `AddTag` is a no-op whenever the
tag is empty after trimming, but the guard `if (!tag) return` fires only
on the empty string: a whitespace-only tag (which trims to empty) is
added verbatim to the selected product. -/
theorem claim5_counterexample :
    jsTrim "  " = "" ∧
    bulkAddTag ["u1"] "  " [{ blankP with uid := "u1" }] ≠
      [{ blankP with uid := "u1" }] := by decide

theorem addTagP_uid (sel : List String) (tag : String) (p : Product) :
    (addTagP sel tag p).uid = p.uid := by
  unfold addTagP
  split <;> rfl

theorem addTagP_idem (sel : List String) (tag : String) (p : Product) :
    addTagP sel tag (addTagP sel tag p) = addTagP sel tag p := by
  by_cases hc : sel.contains p.uid
  · simp only [addTagP, hc, if_true]
    simp only [dedupFirst_append_same]
  · have hmem : p.uid ∉ sel := by simpa using hc
    simp [addTagP, hmem]

/-- C5 (amended): `bulkAddTag` is a no-op exactly when the tag is the
empty string (the check precedes any trimming; in the UI the caller trims
and filters before invoking). Otherwise each selected product's tag list
becomes a duplicate-free list containing exactly its old tags plus the
tag, non-selected products are unchanged, and the operation is
idempotent. -/
theorem claim5_bulkAddTag (sel : List String) (tag : String) (ps : List Product) :
    (tag = "" → bulkAddTag sel tag ps = ps) ∧
    bulkAddTag sel tag (bulkAddTag sel tag ps) = bulkAddTag sel tag ps ∧
    (∀ (i : ℕ) (p p' : Product),
      ps[i]? = some p → (bulkAddTag sel tag ps)[i]? = some p' → tag ≠ "" →
      (sel.contains p.uid = false → p' = p) ∧
      (sel.contains p.uid = true →
        p'.tags.Nodup ∧ tag ∈ p'.tags ∧ ∀ x, x ∈ p'.tags ↔ x ∈ p.tags ∨ x = tag)) := by
  refine ⟨fun h => by simp [bulkAddTag, h], ?_, ?_⟩
  · by_cases h : tag = ""
    · simp [bulkAddTag, h]
    · simp only [bulkAddTag, if_neg h, List.map_map]
      exact List.map_congr_left fun p _ => addTagP_idem sel tag p
  · intro i p p' hp hp' hne
    have hfp' : p' = addTagP sel tag p := by
      have hmap : (bulkAddTag sel tag ps)[i]? = some (addTagP sel tag p) := by
        simp [bulkAddTag, if_neg hne, hp]
      rw [hmap] at hp'
      exact (Option.some_inj.mp hp').symm
    constructor
    · intro hc
      have hmem : p.uid ∉ sel := by simpa using hc
      simp [hfp', addTagP, hmem]
    · intro hc
      simp only [hfp', addTagP, hc, if_true]
      refine ⟨nodup_dedupFirst _ _, ?_, fun x => ?_⟩
      · rw [mem_dedupFirst]
        simp
      · rw [mem_dedupFirst]
        simp

/-- Witness for C5 at a concrete input. -/
theorem claim5_witness :
    bulkAddTag ["u1"] "hype" (bulkAddTag ["u1"] "hype" [{ blankP with uid := "u1" }]) =
      bulkAddTag ["u1"] "hype" [{ blankP with uid := "u1" }] :=
  (claim5_bulkAddTag ["u1"] "hype" [{ blankP with uid := "u1" }]).2.1

theorem handleConvert_eq (now inputUrl ref : String) (h : List HistEntry) :
    handleConvert now inputUrl ref h =
      match convEntry now inputUrl ref with
      | none => h
      | some e => (e :: h).take 400 := by
  unfold handleConvert convEntry
  rcases hp : parseShopUrl inputUrl with e | ⟨st, eid⟩ <;> simp

theorem take_append_take (n : ℕ) (l m : List α) :
    (l ++ m.take n).take n = (l ++ m).take n := by
  rw [List.take_append_eq_append_take, List.take_append_eq_append_take, List.take_take,
    Nat.min_eq_left (Nat.sub_le n l.length)]

theorem runConversions_eq :
    ∀ (runs : List (String × String × String)) (acc : List HistEntry),
      acc.length ≤ 400 →
      runConversions runs acc =
        ((runs.reverse.filterMap fun r => convEntry r.1 r.2.1 r.2.2) ++ acc).take 400
  | [], acc, h => by
    simp only [runConversions, List.foldl_nil, List.reverse_nil, List.filterMap_nil,
      List.nil_append]
    exact (List.take_of_length_le h).symm
  | r :: rest, acc, h => by
    have hstep := handleConvert_eq r.1 r.2.1 r.2.2 acc
    have hcons : runConversions (r :: rest) acc =
        runConversions rest (handleConvert r.1 r.2.1 r.2.2 acc) := rfl
    cases hcv : convEntry r.1 r.2.1 r.2.2 with
    | none =>
      rw [hcv] at hstep
      rw [hcons, hstep, runConversions_eq rest acc h]
      simp [hcv, List.filterMap_append]
    | some e =>
      rw [hcv] at hstep
      have hlen : ((e :: acc).take 400).length ≤ 400 := by
        simp [List.length_take_le]
      rw [hcons, hstep, runConversions_eq rest ((e :: acc).take 400) hlen,
        take_append_take]
      have harr : (r :: rest).reverse.filterMap (fun r => convEntry r.1 r.2.1 r.2.2) =
          rest.reverse.filterMap (fun r => convEntry r.1 r.2.1 r.2.2) ++ [e] := by
        simp [hcv, List.filterMap_append]
      rw [harr, List.append_assoc, List.singleton_append]

theorem length_filterMap_of_isSome {f : α → Option β} :
    ∀ l : List α, (∀ x ∈ l, (f x).isSome) → (l.filterMap f).length = l.length
  | [], _ => rfl
  | a :: as, h => by
    rcases hfa : f a with _ | b
    · exact absurd (hfa ▸ h a (List.mem_cons_self a as)) (by simp)
    · simp only [List.filterMap_cons, hfa, List.length_cons]
      rw [length_filterMap_of_isSome as fun x hx => h x (List.mem_cons_of_mem _ hx)]

/-- C6: the conversion history never exceeds 400 entries; a successful
conversion prepends exactly one entry (newest first) while `slice(0, 400)`
drops anything beyond the 400th (evicting the oldest by insertion order);
and 500 sequential successful conversions starting from an empty history
leave exactly the 400 most recently added entries, newest first. -/
theorem claim6_history :
    (∀ (now inp ref : String) (h : List HistEntry), h.length ≤ 400 →
      (handleConvert now inp ref h).length ≤ 400) ∧
    (∀ (now inp ref : String) (h : List HistEntry) (st eid : String),
      parseShopUrl inp = .ok (st, eid) →
      handleConvert now inp ref h =
        ({ id := eid, ts := now, input := inp, shop_type := st, ref := ref,
           out := toMulebuy st eid ref } : HistEntry) :: h.take 399) ∧
    (∀ runs : List (String × String × String),
      (∀ r ∈ runs, (convEntry r.1 r.2.1 r.2.2).isSome) → runs.length = 500 →
      runConversions runs [] =
        (runs.reverse.filterMap fun r => convEntry r.1 r.2.1 r.2.2).take 400 ∧
      (runConversions runs []).length = 400) := by
  refine ⟨?_, ?_, ?_⟩
  · intro now inp ref h hlen
    rw [handleConvert_eq]
    cases convEntry now inp ref with
    | none => exact hlen
    | some e => simp [List.length_take_le]
  · intro now inp ref h st eid hp
    simp only [handleConvert, hp]
    rw [show (400 : ℕ) = 399 + 1 from rfl, List.take_succ_cons]
  · intro runs hsome hlen
    have heq := runConversions_eq runs [] (by simp)
    rw [List.append_nil] at heq
    refine ⟨heq, ?_⟩
    rw [heq, List.length_take, length_filterMap_of_isSome _ (by simpa using hsome)]
    simp [hlen]

/-- Witness for C6 at a concrete input. -/
theorem claim6_witness :
    handleConvert "2024-01-01" "https://weidian.com/item.html?itemID=123" "R9" [] =
      [{ id := "123", ts := "2024-01-01",
         input := "https://weidian.com/item.html?itemID=123",
         shop_type := "weidian", ref := "R9",
         out := "https://mulebuy.com/product/?shop_type=weidian&id=123&ref=R9" }] := by
  have h := claim6_history.2.1 "2024-01-01" "https://weidian.com/item.html?itemID=123"
    "R9" [] "weidian" "123" (by decide)
  rw [h]; rfl

/-- C3, counterexample: the claim says a product with a non-numeric price
orders as if its price were exactly 0, but `Number("abc") - Number("5")`
is NaN, which the sort treats as a tie, whereas a true zero price orders
strictly below 5. -/
theorem claim3_counterexample :
    jsToNumber "abc" = .nan ∧
    sortCompare (bySort "price_asc"
      { blankP with price := "abc" } { blankP with price := "5" }) = .eq ∧
    sortCompare (bySort "price_asc"
      { blankP with price := "0" } { blankP with price := "5" }) = .lt := by decide

/-- C3 (amended): in the price sorts only the empty price string is
coerced to the number 0; a non-empty non-numeric price string produces
NaN, and a NaN comparator result is treated as a tie by the sort. Hence
every pair of empty-or-non-numeric prices compares equal, an empty price
orders exactly like the number 0 against a numeric price, and a product
with a non-empty non-numeric price ties with every product instead of
ordering as if its price were 0. -/
theorem claim3_priceSort :
    (∀ a b : Product,
      (a.price = "" ∨ jsToNumber a.price = .nan) →
      (b.price = "" ∨ jsToNumber b.price = .nan) →
      sortCompare (bySort "price_asc" a b) = .eq ∧
      sortCompare (bySort "price_desc" a b) = .eq) ∧
    (∀ a b : Product, a.price ≠ "" → jsToNumber a.price = .nan →
      sortCompare (bySort "price_asc" a b) = .eq ∧
      sortCompare (bySort "price_desc" a b) = .eq ∧
      sortCompare (bySort "price_asc" b a) = .eq) ∧
    (∀ (a b : Product) (q : ℚ), a.price = "" → jsToNumber b.price = .fin q →
      sortCompare (bySort "price_asc" a b) = sortCompare (.fin (0 - q))) := by
  have hasc : ∀ a b : Product, bySort "price_asc" a b = JNum.sub (priceNum a) (priceNum b) :=
    fun a b => rfl
  have hdesc : ∀ a b : Product, bySort "price_desc" a b = JNum.sub (priceNum b) (priceNum a) :=
    fun a b => rfl
  have hpn : ∀ a : Product, (a.price = "" ∨ jsToNumber a.price = .nan) →
      priceNum a = .fin 0 ∨ priceNum a = .nan := by
    intro a ha
    rcases ha with h | h
    · exact Or.inl (by simp [priceNum, h])
    · by_cases he : a.price = ""
      · exact Or.inl (by simp [priceNum, he])
      · exact Or.inr (by simp [priceNum, he, h])
  refine ⟨?_, ?_, ?_⟩
  · intro a b ha hb
    rcases hpn a ha with h1 | h1 <;> rcases hpn b hb with h2 | h2 <;>
      rw [hasc, hdesc, h1, h2] <;> exact ⟨by decide, by decide⟩
  · intro a b hne hnan
    have h1 : priceNum a = .nan := by simp [priceNum, hne, hnan]
    refine ⟨?_, ?_, ?_⟩
    · rw [hasc, h1]
      cases priceNum b <;> rfl
    · rw [hdesc, h1]
      cases priceNum b <;> rfl
    · rw [hasc, h1]
      cases priceNum b <;> rfl
  · intro a b q ha hb
    have hpa : priceNum a = .fin 0 := by simp [priceNum, ha]
    have hpb : priceNum b = .fin q := by
      by_cases he : b.price = ""
      · have h0 : jsToNumber b.price = .fin 0 := he ▸ (by decide : jsToNumber "" = .fin 0)
        have hq : (JNum.fin 0) = .fin q := h0 ▸ hb
        simp only [priceNum, he, if_true]
        exact hq
      · simp [priceNum, he, hb]
    rw [hasc, hpa, hpb, JNum.sub_fin]

/-- Witness for C3 at a concrete input. -/
theorem claim3_witness :
    sortCompare (bySort "price_asc"
      { blankP with price := "x" } { blankP with price := "y" }) = .eq :=
  (claim3_priceSort.1 { blankP with price := "x" } { blankP with price := "y" }
    (Or.inr (by decide)) (Or.inr (by decide))).1

theorem decodeQ_safe : ∀ (l : List Char), (∀ c ∈ l, qsafe c = true) → decodeQ l = l
  | [], _ => rfl
  | c :: rest, h => by
    have hc : qsafe c = true := h c (List.mem_cons_self _ _)
    have hplus : c ≠ '+' := by rintro rfl; exact absurd hc (by decide)
    have hpct : c ≠ '%' := by rintro rfl; exact absurd hc (by decide)
    rw [decodeQ.eq_def]
    split
    · rename_i x heq
      cases heq
    · rename_i x rest2 heq
      injection heq with h1 h2
      exact absurd h1 hplus
    · rename_i x a b rest2 heq
      injection heq with h1 h2
      exact absurd h1 hpct
    · rename_i x c2 rest2 hn1 hn2 heq
      injection heq with h1 h2
      subst h1
      subst h2
      rw [decodeQ_safe rest fun x hx => h x (List.mem_cons_of_mem _ hx)]

theorem takeWhile_append_stop {p : Char → Bool} :
    ∀ (l : List Char) (x : Char) (m : List Char), (∀ c ∈ l, p c = true) → p x = false →
      (l ++ x :: m).takeWhile p = l ∧ (l ++ x :: m).dropWhile p = x :: m
  | [], x, m, _, hx => by simp [List.takeWhile, List.dropWhile, hx]
  | c :: l, x, m, hl, hx => by
    have hc : p c = true := hl c (List.mem_cons_self _ _)
    have ih := takeWhile_append_stop l x m (fun d hd => hl d (List.mem_cons_of_mem _ hd)) hx
    simp [List.takeWhile, List.dropWhile, hc, ih.1, ih.2]

theorem splitOnC_ne_nil (sep : Char) : ∀ l : List Char, splitOnC sep l ≠ []
  | [] => by simp [splitOnC]
  | a :: as => by
    simp only [splitOnC]
    cases h : splitOnC sep as with
    | nil => simp
    | cons r rs => by_cases ha : a = sep <;> simp [ha]

theorem splitOnC_no_sep (sep : Char) : ∀ l : List Char, sep ∉ l → splitOnC sep l = [l]
  | [], _ => rfl
  | a :: as, h => by
    have hne : a ≠ sep := fun hs => h (hs ▸ List.mem_cons_self _ _)
    have ih := splitOnC_no_sep sep as fun hs => h (List.mem_cons_of_mem _ hs)
    simp [splitOnC, ih, hne]

theorem splitOnC_append (sep : Char) :
    ∀ (l : List Char), sep ∉ l → ∀ rest : List Char,
      splitOnC sep (l ++ sep :: rest) = l :: splitOnC sep rest
  | [], _, rest => by
    cases h : splitOnC sep rest with
    | nil => exact absurd h (splitOnC_ne_nil sep rest)
    | cons r rs => simp [splitOnC, h]
  | a :: l, hmem, rest => by
    have hne : a ≠ sep := fun hs => hmem (hs ▸ List.mem_cons_self _ _)
    have ih := splitOnC_append sep l (fun hs => hmem (List.mem_cons_of_mem _ hs)) rest
    simp only [List.cons_append, splitOnC, List.append_eq]
    rw [ih]
    simp [hne]

theorem qsafe_ne (c : Char) (x : Char) (hc : qsafe c = true) (hx : qsafe x = false) :
    c ≠ x := by
  rintro rfl
  rw [hc] at hx
  cases hx

/-- A three-parameter query string with metacharacter-free keys and
values parses to exactly its three key/value pairs, in order. -/
theorem parseQuery_three (q : String) (k1 v1 k2 v2 k3 v3 : List Char)
    (hq : q.toList = k1 ++ '=' :: (v1 ++ '&' :: (k2 ++ '=' :: (v2 ++ '&' :: (k3 ++ '=' :: v3)))))
    (h1 : ∀ c ∈ k1, qsafe c = true) (h2 : ∀ c ∈ v1, qsafe c = true)
    (h3 : ∀ c ∈ k2, qsafe c = true) (h4 : ∀ c ∈ v2, qsafe c = true)
    (h5 : ∀ c ∈ k3, qsafe c = true) (h6 : ∀ c ∈ v3, qsafe c = true) :
    parseQuery q = [(String.mk k1, String.mk v1), (String.mk k2, String.mk v2),
      (String.mk k3, String.mk v3)] := by
  have amp1 : ('&' : Char) ∉ k1 ++ '=' :: v1 := by
    intro hmem
    rcases List.mem_append.mp hmem with hk | hv
    · exact qsafe_ne _ '&' (h1 _ hk) (by decide) rfl
    · rcases List.mem_cons.mp hv with he | hv
      · cases he
      · exact qsafe_ne _ '&' (h2 _ hv) (by decide) rfl
  have amp2 : ('&' : Char) ∉ k2 ++ '=' :: v2 := by
    intro hmem
    rcases List.mem_append.mp hmem with hk | hv
    · exact qsafe_ne _ '&' (h3 _ hk) (by decide) rfl
    · rcases List.mem_cons.mp hv with he | hv
      · cases he
      · exact qsafe_ne _ '&' (h4 _ hv) (by decide) rfl
  have amp3 : ('&' : Char) ∉ k3 ++ '=' :: v3 := by
    intro hmem
    rcases List.mem_append.mp hmem with hk | hv
    · exact qsafe_ne _ '&' (h5 _ hk) (by decide) rfl
    · rcases List.mem_cons.mp hv with he | hv
      · cases he
      · exact qsafe_ne _ '&' (h6 _ hv) (by decide) rfl
  have hsplit : splitOnC '&' q.toList =
      [k1 ++ '=' :: v1, k2 ++ '=' :: v2, k3 ++ '=' :: v3] := by
    rw [hq]
    rw [show k1 ++ '=' :: (v1 ++ '&' :: (k2 ++ '=' :: (v2 ++ '&' :: (k3 ++ '=' :: v3)))) =
      (k1 ++ '=' :: v1) ++ '&' :: ((k2 ++ '=' :: v2) ++ '&' :: (k3 ++ '=' :: v3)) by simp]
    rw [splitOnC_append '&' _ amp1, splitOnC_append '&' _ amp2, splitOnC_no_sep '&' _ amp3]
  have hpiece : ∀ (k v : List Char), (∀ c ∈ k, qsafe c = true) → (∀ c ∈ v, qsafe c = true) →
      ((k ++ '=' :: v).takeWhile (fun c => c ≠ '='),
        ((k ++ '=' :: v).dropWhile (fun c => c ≠ '=')).drop 1) = (k, v) := by
    intro k v hk hv
    have hstop := takeWhile_append_stop (p := fun c => decide (c ≠ '=')) k '=' v
      (fun c hc => by
        have := qsafe_ne c '=' (hk c hc) (by decide)
        simp [this])
      (by simp)
    simp only [hstop.1, hstop.2, List.drop_succ_cons, List.drop_zero]
  have e1 := hpiece k1 v1 h1 h2
  have e2 := hpiece k2 v2 h3 h4
  have e3 := hpiece k3 v3 h5 h6
  simp only [Prod.mk.injEq] at e1 e2 e3
  have hfil : List.filter (fun p => ¬ p.isEmpty)
      [k1 ++ '=' :: v1, k2 ++ '=' :: v2, k3 ++ '=' :: v3] =
      [k1 ++ '=' :: v1, k2 ++ '=' :: v2, k3 ++ '=' :: v3] := by
    apply List.filter_eq_self.mpr
    intro a ha
    have hne : ∀ (k v : List Char), ((k ++ '=' :: v).isEmpty) = false := by
      intro k v
      cases k <;> rfl
    simp only [List.mem_cons, List.not_mem_nil, or_false] at ha
    rcases ha with rfl | rfl | rfl <;> simp [hne]
  simp only [parseQuery, hsplit, hfil, List.map_cons, List.map_nil]
  rw [e1.1, e1.2, e2.1, e2.2, e3.1, e3.2, decodeQ_safe k1 h1, decodeQ_safe v1 h2,
    decodeQ_safe k2 h3, decodeQ_safe v2 h4, decodeQ_safe k3 h5, decodeQ_safe v3 h6]

theorem strToList_append (a b : String) : (a ++ b).toList = a.toList ++ b.toList :=
  String.data_append a b

theorem strMk_toList (s : String) : String.mk s.toList = s := rfl

/-- C7: `toMulebuy` is the fixed template base URL followed by the query
parameters `shop_type`, `id`, `ref` in exactly that order; an empty
referral code is replaced by the process-wide default and the resolved
code is trimmed; for metacharacter-free components, parsing the query
string back yields the three pairs in order; and the two concrete spec
examples hold. The operation is a total function by construction. -/
theorem claim7_render :
    (∀ st id rc : String,
      toMulebuy st id rc =
        "https://mulebuy.com/product/?" ++
          ("shop_type=" ++ st ++ "&id=" ++ id ++ "&ref=" ++ resolvedRef rc)) ∧
    (∀ st id rc : String,
      (∀ c ∈ st.toList, qsafe c = true) → (∀ c ∈ id.toList, qsafe c = true) →
      (∀ c ∈ (resolvedRef rc).toList, qsafe c = true) →
      parseQuery ("shop_type=" ++ st ++ "&id=" ++ id ++ "&ref=" ++ resolvedRef rc) =
        [("shop_type", st), ("id", id), ("ref", resolvedRef rc)]) ∧
    toMulebuy "weidian" "123" "R9" =
      "https://mulebuy.com/product/?shop_type=weidian&id=123&ref=R9" ∧
    toMulebuy "weidian" "123" "" =
      "https://mulebuy.com/product/?shop_type=weidian&id=123&ref=200084174" := by
  refine ⟨?_, ?_, by decide, by decide⟩
  · intro st id rc
    apply String.ext
    have h1 : ("https://mulebuy.com/product/?shop_type=" : String).data =
        "https://mulebuy.com/product/?".data ++ "shop_type=".data := rfl
    simp only [toMulebuy, resolvedRef, String.data_append, h1, List.append_assoc,
      List.cons_append, List.nil_append]
  · intro st id rc hst hid href
    have hq : ("shop_type=" ++ st ++ "&id=" ++ id ++ "&ref=" ++ resolvedRef rc).toList =
        "shop_type".toList ++ '=' :: (st.toList ++ '&' ::
          ("id".toList ++ '=' :: (id.toList ++ '&' ::
            ("ref".toList ++ '=' :: (resolvedRef rc).toList)))) := by
      have e1 : ("shop_type=" : String).toList =
          "shop_type".toList ++ ['='] := rfl
      have e2 : ("&id=" : String).toList = '&' :: "id".toList ++ ['='] := rfl
      have e3 : ("&ref=" : String).toList = '&' :: "ref".toList ++ ['='] := rfl
      simp only [strToList_append, e1, e2, e3, List.append_assoc, List.cons_append,
        List.nil_append, List.singleton_append]
    have := parseQuery_three _ "shop_type".toList st.toList "id".toList id.toList
      "ref".toList (resolvedRef rc).toList hq
      (by decide) hst (by decide) hid (by decide) href
    simpa only [strMk_toList] using this

/-- Witness for C7 at a concrete input. -/
theorem claim7_witness :
    parseQuery ("shop_type=" ++ "weidian" ++ "&id=" ++ "123" ++ "&ref=" ++ resolvedRef "R9") =
      [("shop_type", "weidian"), ("id", "123"), ("ref", resolvedRef "R9")] :=
  claim7_render.2.1 "weidian" "123" "R9" (by decide) (by decide) (by decide)

/-- C10: the default substituted for an empty referral code is the
built-in constant `"200084174"` (the `DEFAULT_SETTINGS` value, not any
later-configured setting), and because the `ref || default` emptiness
check precedes trimming, a whitespace-only referral code is not replaced:
the rendered URL ends with an empty `ref=` value. -/
theorem claim10_defaultRef :
    DEFAULT_SETTINGS.defaultRef = "200084174" ∧
    (∀ st id : String, toMulebuy st id "" =
      "https://mulebuy.com/product/?shop_type=" ++ st ++ "&id=" ++ id ++ "&ref=" ++
        "200084174") ∧
    (∀ st id rc : String, rc ≠ "" → jsTrim rc = "" →
      toMulebuy st id rc =
        "https://mulebuy.com/product/?shop_type=" ++ st ++ "&id=" ++ id ++ "&ref=") := by
  refine ⟨rfl, ?_, ?_⟩
  · intro st id
    have h : jsTrim DEFAULT_SETTINGS.defaultRef = "200084174" := by decide
    simp [toMulebuy, h]
  · intro st id rc hne htrim
    simp only [toMulebuy, if_neg hne, htrim]
    exact String.append_empty _

/-- Witness for C10 at a concrete input. -/
theorem claim10_witness :
    toMulebuy "weidian" "1" "  " =
      "https://mulebuy.com/product/?shop_type=" ++ "weidian" ++ "&id=" ++ "1" ++ "&ref=" :=
  claim10_defaultRef.2.2 "weidian" "1" "  " (by decide) (by decide)

theorem parseShopUrl_eq (raw : String) :
    parseShopUrl raw =
      if jsTrim raw = "" then .error .EmptyInput
      else
        match parseURL (jsTrim raw) with
        | none => .error .MalformedUrl
        | some url =>
          if strIncludes url.hostname "weidian.com" then weidianResult url
          else if strIncludes url.hostname "taobao.com" then taobaoResult url
          else .error .UnsupportedDomain := rfl

theorem weidianResult_outcomes (u : URLRec) :
    weidianResult u = .error .MissingItemId ∨
    ∃ v, getParam (parseQuery u.query) "itemID" = some v ∧ v ≠ "" ∧
      weidianResult u = .ok ("weidian", v) := by
  unfold weidianResult
  rcases getParam (parseQuery u.query) "itemID" with _ | v
  · exact Or.inl rfl
  · by_cases hv : v = ""
    · exact Or.inl (by simp [hv])
    · exact Or.inr ⟨v, rfl, hv, by simp [hv]⟩

theorem taobaoResult_outcomes (u : URLRec) :
    taobaoResult u = .error .MissingItemId ∨
    ∃ v, getParam (parseQuery u.query) "id" = some v ∧ v ≠ "" ∧
      taobaoResult u = .ok ("taobao", v) := by
  unfold taobaoResult
  rcases getParam (parseQuery u.query) "id" with _ | v
  · exact Or.inl rfl
  · by_cases hv : v = ""
    · exact Or.inl (by simp [hv])
    · exact Or.inr ⟨v, rfl, hv, by simp [hv]⟩

theorem parseShopUrl_not_special (raw : String) (u : URLRec)
    (hs : jsTrim raw ≠ "") (hu : parseURL (jsTrim raw) = some u) :
    parseShopUrl raw = weidianResult u ∨ parseShopUrl raw = taobaoResult u ∨
    (parseShopUrl raw = .error .UnsupportedDomain ∧
      strIncludes u.hostname "weidian.com" = false ∧
      strIncludes u.hostname "taobao.com" = false) := by
  by_cases hw : strIncludes u.hostname "weidian.com"
  · exact Or.inl (by simp [parseShopUrl_eq, hs, hu, hw])
  · by_cases ht : strIncludes u.hostname "taobao.com"
    · exact Or.inr (Or.inl (by simp [parseShopUrl_eq, hs, hu, hw, ht]))
    · refine Or.inr (Or.inr ⟨by simp [parseShopUrl_eq, hs, hu, hw, ht], ?_, ?_⟩) <;>
        simp [hw, ht]

/-- C4: the `parseShopUrl` error taxonomy. `EmptyInput` occurs exactly on
whitespace-only input; `MalformedUrl` exactly when the trimmed input is
non-empty but fails URL parsing; with a parsed URL whose hostname contains
`weidian.com` as a substring the result is governed by the `itemID` query
parameter (`MissingItemId` exactly when it is absent or empty, otherwise
the weidian pair); likewise for `taobao.com` and `id` when the weidian
match failed; `UnsupportedDomain` occurs exactly when the URL parses and
the hostname contains neither domain; and the four error kinds are
pairwise distinct. -/
theorem claim4_parse :
    (∀ raw : String, parseShopUrl raw = .error .EmptyInput ↔ jsTrim raw = "") ∧
    (∀ raw : String, parseShopUrl raw = .error .MalformedUrl ↔
      jsTrim raw ≠ "" ∧ parseURL (jsTrim raw) = none) ∧
    (∀ (raw : String) (u : URLRec), jsTrim raw ≠ "" → parseURL (jsTrim raw) = some u →
      strIncludes u.hostname "weidian.com" = true →
      parseShopUrl raw = weidianResult u) ∧
    (∀ (raw : String) (u : URLRec), jsTrim raw ≠ "" → parseURL (jsTrim raw) = some u →
      strIncludes u.hostname "weidian.com" = false →
      strIncludes u.hostname "taobao.com" = true →
      parseShopUrl raw = taobaoResult u) ∧
    (∀ raw : String, parseShopUrl raw = .error .UnsupportedDomain ↔
      (jsTrim raw ≠ "" ∧ ∃ u, parseURL (jsTrim raw) = some u ∧
        strIncludes u.hostname "weidian.com" = false ∧
        strIncludes u.hostname "taobao.com" = false)) ∧
    (∀ u : URLRec,
      (weidianResult u = .error .MissingItemId ↔
        (getParam (parseQuery u.query) "itemID" = none ∨
          getParam (parseQuery u.query) "itemID" = some "")) ∧
      (∀ v, getParam (parseQuery u.query) "itemID" = some v → v ≠ "" →
        weidianResult u = .ok ("weidian", v)) ∧
      (taobaoResult u = .error .MissingItemId ↔
        (getParam (parseQuery u.query) "id" = none ∨
          getParam (parseQuery u.query) "id" = some "")) ∧
      (∀ v, getParam (parseQuery u.query) "id" = some v → v ≠ "" →
        taobaoResult u = .ok ("taobao", v))) ∧
    [ParseErr.EmptyInput, ParseErr.MalformedUrl, ParseErr.MissingItemId,
      ParseErr.UnsupportedDomain].Nodup := by
  refine ⟨?_, ?_, ?_, ?_, ?_, ?_, by decide⟩
  · intro raw
    constructor
    · intro h
      by_cases hs : jsTrim raw = ""
      · exact hs
      · exfalso
        rcases hurl : parseURL (jsTrim raw) with _ | u
        · have hm : parseShopUrl raw = .error .MalformedUrl := by
            simp [parseShopUrl_eq, hs, hurl]
          rw [hm] at h
          simp at h
        · rcases parseShopUrl_not_special raw u hs hurl with he | he | ⟨he, _, _⟩
          · have hcomb := he.symm.trans h
            rcases weidianResult_outcomes u with ho | ⟨v, _, _, ho⟩ <;> rw [ho] at hcomb <;>
              simp at hcomb
          · have hcomb := he.symm.trans h
            rcases taobaoResult_outcomes u with ho | ⟨v, _, _, ho⟩ <;> rw [ho] at hcomb <;>
              simp at hcomb
          · rw [he] at h
            simp at h
    · intro hs
      simp [parseShopUrl_eq, hs]
  · intro raw
    constructor
    · intro h
      by_cases hs : jsTrim raw = ""
      · rw [show parseShopUrl raw = .error .EmptyInput by simp [parseShopUrl_eq, hs]] at h
        simp at h
      · refine ⟨hs, ?_⟩
        rcases hurl : parseURL (jsTrim raw) with _ | u
        · rfl
        · exfalso
          rcases parseShopUrl_not_special raw u hs hurl with he | he | ⟨he, _, _⟩
          · have hcomb := he.symm.trans h
            rcases weidianResult_outcomes u with ho | ⟨v, _, _, ho⟩ <;> rw [ho] at hcomb <;>
              simp at hcomb
          · have hcomb := he.symm.trans h
            rcases taobaoResult_outcomes u with ho | ⟨v, _, _, ho⟩ <;> rw [ho] at hcomb <;>
              simp at hcomb
          · rw [he] at h
            simp at h
    · rintro ⟨hs, hurl⟩
      simp [parseShopUrl_eq, hs, hurl]
  · intro raw u hs hu hw
    simp [parseShopUrl_eq, hs, hu, hw]
  · intro raw u hs hu hw ht
    simp [parseShopUrl_eq, hs, hu, hw, ht]
  · intro raw
    constructor
    · intro h
      by_cases hs : jsTrim raw = ""
      · rw [show parseShopUrl raw = .error .EmptyInput by simp [parseShopUrl_eq, hs]] at h
        simp at h
      · refine ⟨hs, ?_⟩
        rcases hurl : parseURL (jsTrim raw) with _ | u
        · rw [show parseShopUrl raw = .error .MalformedUrl by simp [parseShopUrl_eq, hs, hurl]] at h
          simp at h
        · refine ⟨u, rfl, ?_⟩
          rcases parseShopUrl_not_special raw u hs hurl with he | he | ⟨_, hw, ht⟩
          · exfalso
            have hcomb := he.symm.trans h
            rcases weidianResult_outcomes u with ho | ⟨v, _, _, ho⟩ <;> rw [ho] at hcomb <;>
              simp at hcomb
          · exfalso
            have hcomb := he.symm.trans h
            rcases taobaoResult_outcomes u with ho | ⟨v, _, _, ho⟩ <;> rw [ho] at hcomb <;>
              simp at hcomb
          · exact ⟨hw, ht⟩
    · rintro ⟨hs, u, hurl, hw, ht⟩
      simp [parseShopUrl_eq, hs, hurl, hw, ht]
  · intro u
    refine ⟨?_, ?_, ?_, ?_⟩
    · unfold weidianResult
      rcases getParam (parseQuery u.query) "itemID" with _ | v
      · simp
      · by_cases hv : v = "" <;> simp [hv]
    · intro v hv hne
      unfold weidianResult
      rw [hv]
      simp [hne]
    · unfold taobaoResult
      rcases getParam (parseQuery u.query) "id" with _ | v
      · simp
      · by_cases hv : v = "" <;> simp [hv]
    · intro v hv hne
      unfold taobaoResult
      rw [hv]
      simp [hne]

/-- Witness for C4 at a concrete input. -/
theorem claim4_witness :
    parseShopUrl " https://weidian.com/item.html?itemID=123 " =
      weidianResult ⟨"weidian.com", "itemID=123"⟩ :=
  claim4_parse.2.2.1 " https://weidian.com/item.html?itemID=123 "
    ⟨"weidian.com", "itemID=123"⟩ (by decide) (by decide) (by decide)

/-- C9: importing a parsed JSON value that is neither an array nor an
object carrying a products array or a settings field — a number, a
string, a boolean, or an object of unrelated keys — reports success and
leaves both the product collection and the settings unchanged; importing
the parsed value of the JSON text `null` reports an import error (the
`data.products` access throws before any state is touched), and the state
is unchanged there as well. -/
theorem claim9_import :
    (∀ (data : JVal) (ps : List JVal) (st : JVal),
      (∀ l, data ≠ .arr l) → data ≠ .null →
      (∀ fs, data = .obj fs →
        (∀ l, lookupKey "products" fs ≠ some (.arr l)) ∧
          lookupKey "settings" fs = none) →
      jsImport data ps st = (none, (ps, st))) ∧
    (∀ (ps : List JVal) (st : JVal), jsImport .null ps st = (some (), (ps, st))) := by
  constructor
  · intro data ps st harr hnull hobj
    cases data with
    | null => exact absurd rfl hnull
    | arr l => exact absurd rfl (harr l)
    | bool b => rfl
    | num q => rfl
    | str s => rfl
    | obj fs =>
      obtain ⟨hp, hsn⟩ := hobj fs rfl
      rcases hpk : lookupKey "products" fs with _ | v
      · simp [jsImport, spreadFields, hpk, hsn]
      · cases v <;> first
          | exact absurd hpk (hp _)
          | simp [jsImport, spreadFields, hpk, hsn]
  · intro ps st
    rfl

/-- Witness for C9 at a concrete input. -/
theorem claim9_witness :
    jsImport (.num 5) [.str "p"] (.obj [("defaultRef", .str "x")]) =
      (none, ([.str "p"], .obj [("defaultRef", .str "x")])) :=
  claim9_import.1 (.num 5) [.str "p"] (.obj [("defaultRef", .str "x")])
    (fun _ h => JVal.noConfusion h) (fun h => JVal.noConfusion h)
    (fun _ h => JVal.noConfusion h)

theorem lookupKey_of_mem_nodup :
    ∀ fs : List (String × JVal), (fs.map Prod.fst).Nodup →
      ∀ kv ∈ fs, lookupKey kv.1 fs = some kv.2
  | [], _, kv, h => absurd h (List.not_mem_nil kv)
  | (k, v) :: rest, hnd, kv, hmem => by
    rcases List.mem_cons.mp hmem with rfl | hm
    · simp [lookupKey]
    · have hkey : kv.1 ∈ rest.map Prod.fst := List.mem_map_of_mem Prod.fst hm
      have hk : k ≠ kv.1 := by
        intro he
        exact (List.nodup_cons.mp (by simpa using hnd)).1 (he ▸ hkey)
      have ih := lookupKey_of_mem_nodup rest
        (List.Nodup.of_cons (by simpa using hnd)) kv hm
      simp [lookupKey, hk, ih]

theorem mergeSelf (fs : List (String × JVal)) (hnd : (fs.map Prod.fst).Nodup) :
    jsSpread (.obj fs) (.obj fs) = .obj fs := by
  simp only [jsSpread, spreadFields]
  have h1 : fs.map (fun kv => (kv.1, (lookupKey kv.1 fs).getD kv.2)) = fs := by
    have hpt : ∀ kv ∈ fs, (kv.1, (lookupKey kv.1 fs).getD kv.2) = kv := by
      intro kv hkv
      rw [lookupKey_of_mem_nodup fs hnd kv hkv]
      rfl
    calc fs.map (fun kv => (kv.1, (lookupKey kv.1 fs).getD kv.2))
        = fs.map id := List.map_congr_left hpt
      _ = fs := List.map_id fs
  have h2 : fs.filter (fun kv => ¬ (fs.map Prod.fst).contains kv.1) = [] := by
    rw [List.filter_eq_nil_iff]
    intro kv hkv
    have hmem : kv.1 ∈ fs.map Prod.fst := List.mem_map_of_mem Prod.fst hkv
    simp [hmem]
  rw [h1, h2, List.append_nil]

/-- C8: `Export` produces a JSON object with exactly the two top-level
fields `settings` and `products` (in that order), and importing the
exported document into the state it was exported from succeeds, replaces
the product collection with the exported array and merges the exported
settings over the current settings, reproducing the identical state. -/
theorem claim8_roundTrip (fs : List (String × JVal)) (ps : List JVal)
    (hnd : (fs.map Prod.fst).Nodup) :
    exportDoc (.obj fs) ps = .obj [("settings", .obj fs), ("products", .arr ps)] ∧
    (match exportDoc (.obj fs) ps with
      | .obj l => l.map Prod.fst
      | _ => []) = ["settings", "products"] ∧
    jsImport (exportDoc (.obj fs) ps) ps (.obj fs) = (none, (ps, .obj fs)) := by
  refine ⟨rfl, rfl, ?_⟩
  have hp : lookupKey "products" [("settings", JVal.obj fs), ("products", JVal.arr ps)] =
      some (.arr ps) := rfl
  have hs : lookupKey "settings" [("settings", JVal.obj fs), ("products", JVal.arr ps)] =
      some (.obj fs) := rfl
  simp only [jsImport, exportDoc, spreadFields, hp, hs, jsTruthy, if_true]
  rw [mergeSelf fs hnd]

/-- Witness for C8 at a concrete input. -/
theorem claim8_witness :
    jsImport (exportDoc (.obj [("defaultRef", .str "200084174")]) [.str "p1"])
      [.str "p1"] (.obj [("defaultRef", .str "200084174")]) =
      (none, ([.str "p1"], .obj [("defaultRef", .str "200084174")])) :=
  (claim8_roundTrip [("defaultRef", .str "200084174")] [.str "p1"] (by decide)).2.2

theorem migrate_shortCircuit (ug2 : ℕ → String) (now2 : String) (s2 : Store) (v : JVal)
    (hp : s2.products = some v) (hn : v.isNull = false) (ht : jsTruthy v = true) :
    migrateIfNeeded ug2 now2 s2 =
      .ok (⟨v, loadJSON s2.settings (settingsToJ DEFAULT_SETTINGS),
        loadJSON s2.history (.arr [])⟩, s2) := by
  have hload : loadJSON s2.products .null = v := by
    rw [hp]
    simp [loadJSON, hn]
  simp only [migrateIfNeeded, hload, ht, if_true]

/-- C2: after any successful first run of the migration procedure —
whether it found current-version data, migrated legacy data, or
initialized a fresh empty state — a second run finds the current-version
products blob present and truthy (even as an empty array), short-circuits,
performs no store write at all (the entire store, and in particular the
products key, is returned unchanged), and reports the same product
collection. -/
theorem claim2_migrateIdempotent (ug : ℕ → String) (now : String)
    (ug2 : ℕ → String) (now2 : String) (s : Store) (r : BootState) (s1 : Store)
    (h : migrateIfNeeded ug now s = .ok (r, s1)) :
    jsTruthy (loadJSON s1.products .null) = true ∧
    ∃ r2 : BootState, migrateIfNeeded ug2 now2 s1 = .ok (r2, s1) ∧
      r2.products = r.products := by
  simp only [migrateIfNeeded] at h
  by_cases h0 : jsTruthy (loadJSON s.products .null) = true
  · rw [if_pos h0] at h
    simp only [Except.ok.injEq, Prod.mk.injEq] at h
    obtain ⟨hr, hs1⟩ := h
    subst hs1
    rcases hcell : s.products with _ | v
    · rw [hcell] at h0
      simp [loadJSON, jsTruthy] at h0
    · by_cases hn : v.isNull = true
      · have hvn : v = .null := by
          cases v <;> first | rfl | cases hn
        rw [hcell, hvn] at h0
        simp [loadJSON, jsTruthy] at h0
      · have hnf : v.isNull = false := by
          cases hb : v.isNull
          · rfl
          · exact absurd hb hn
        have hload : loadJSON s.products .null = v := by
          rw [hcell]
          simp [loadJSON, hnf]
        have ht : jsTruthy v = true := by
          rw [hload] at h0
          exact h0
        refine ⟨by simp only [loadJSON, hnf]; exact ht,
          ⟨v, loadJSON s.settings (settingsToJ DEFAULT_SETTINGS),
            loadJSON s.history (.arr [])⟩,
          migrate_shortCircuit ug2 now2 s v hcell hnf ht, ?_⟩
        rw [← hr, hload]
  · rw [if_neg h0] at h
    cases hleg : loadJSON s.legacySaved .null with
    | arr xs =>
      rw [hleg] at h
      cases hm : migrateList ug now 0 xs with
      | error e =>
        simp only [bind, Except.bind, hm] at h
        exact Except.noConfusion h
      | ok migrated =>
        simp only [bind, Except.bind, hm, Except.ok.injEq, Prod.mk.injEq] at h
        obtain ⟨hr, hs1⟩ := h
        subst hs1
        refine ⟨rfl, ⟨.arr migrated, _, _⟩,
          migrate_shortCircuit ug2 now2 _ (.arr migrated) rfl rfl rfl, ?_⟩
        rw [← hr]
    | null =>
      rw [hleg] at h
      simp only [Except.ok.injEq, Prod.mk.injEq] at h
      obtain ⟨hr, hs1⟩ := h
      subst hs1
      refine ⟨rfl, ⟨.arr [], _, _⟩,
        migrate_shortCircuit ug2 now2 _ (.arr []) rfl rfl rfl, ?_⟩
      rw [← hr]
    | bool b =>
      rw [hleg] at h
      simp only [Except.ok.injEq, Prod.mk.injEq] at h
      obtain ⟨hr, hs1⟩ := h
      subst hs1
      refine ⟨rfl, ⟨.arr [], _, _⟩,
        migrate_shortCircuit ug2 now2 _ (.arr []) rfl rfl rfl, ?_⟩
      rw [← hr]
    | num q =>
      rw [hleg] at h
      simp only [Except.ok.injEq, Prod.mk.injEq] at h
      obtain ⟨hr, hs1⟩ := h
      subst hs1
      refine ⟨rfl, ⟨.arr [], _, _⟩,
        migrate_shortCircuit ug2 now2 _ (.arr []) rfl rfl rfl, ?_⟩
      rw [← hr]
    | str sv =>
      rw [hleg] at h
      simp only [Except.ok.injEq, Prod.mk.injEq] at h
      obtain ⟨hr, hs1⟩ := h
      subst hs1
      refine ⟨rfl, ⟨.arr [], _, _⟩,
        migrate_shortCircuit ug2 now2 _ (.arr []) rfl rfl rfl, ?_⟩
      rw [← hr]
    | obj fs =>
      rw [hleg] at h
      simp only [Except.ok.injEq, Prod.mk.injEq] at h
      obtain ⟨hr, hs1⟩ := h
      subst hs1
      refine ⟨rfl, ⟨.arr [], _, _⟩,
        migrate_shortCircuit ug2 now2 _ (.arr []) rfl rfl rfl, ?_⟩
      rw [← hr]

/-- Witness for C2: a concrete first run from an empty store, followed by
the theorem's second-run guarantee. -/
theorem claim2_witness :
    jsTruthy (loadJSON (Store.mk (some (.arr []))
      (some (settingsToJ DEFAULT_SETTINGS)) (some (.arr [])) none none).products
      .null) = true ∧
    ∃ r2 : BootState,
      migrateIfNeeded (fun _ => "u2") "2024-02-02"
        (Store.mk (some (.arr [])) (some (settingsToJ DEFAULT_SETTINGS))
          (some (.arr [])) none none) =
        .ok (r2, Store.mk (some (.arr [])) (some (settingsToJ DEFAULT_SETTINGS))
          (some (.arr [])) none none) ∧
      r2.products = (BootState.mk (.arr []) (settingsToJ DEFAULT_SETTINGS)
        (.arr [])).products :=
  claim2_migrateIdempotent (fun _ => "u1") "2024-01-01" (fun _ => "u2") "2024-02-02"
    (Store.mk none none none none none)
    (BootState.mk (.arr []) (settingsToJ DEFAULT_SETTINGS) (.arr []))
    (Store.mk (some (.arr [])) (some (settingsToJ DEFAULT_SETTINGS))
      (some (.arr [])) none none)
    rfl
